import Mathlib

/-!
Verification development for the skribly backend: a Lean 4 shallow embedding of
the in-memory room registry, the game-engine socket handlers, the word service
and the drawing relay, together with theorems settling the specification claims.

Modelling conventions
* Python dicts keyed by strings become association lists with the helpers
  dget / dset / ddel below (dset updates in place, appending new keys at
  the end, exactly like insertion-ordered Python dicts).
* Wall-clock values (time.time() floats) become rationals; the current time is
  passed to each handler as an explicit argument named now.
* Python int() truncation applied to the non-negative quantities in the code
  equals Int.floor.
* Python str.lower / str.strip are modelled for ASCII by pyLower / pyStrip.
* Socket emissions and timer manipulations become an ordered list of Ev values
  returned by each handler; event payload fields that no claim observes
  (usernames inside chat events, raw timestamps) are dropped.
* The per-room game_state dict created by MemoryService.create_room has no
  players_guessed / drawer_order / current_drawer_index keys until start_game
  runs; every reader accesses them through .get with defaults [] / [] / 0, so
  the embedding stores those defaults directly.
-/

namespace Skribly

/-- Python str.lower restricted to ASCII, written over the character list so
that it evaluates inside the kernel. -/
def pyLower (s : String) : String := String.mk (s.data.map Char.toLower)

/-- Python str.strip for ASCII whitespace: drop whitespace from both ends. -/
def pyStrip (s : String) : String :=
  String.mk (((s.data.dropWhile Char.isWhitespace).reverse.dropWhile
    Char.isWhitespace).reverse)

/-- Python dict read d.get(k) over an association list. -/
def dget {α : Type} : List (String × α) → String → Option α
  | [], _ => none
  | p :: rest, k => if p.1 = k then some p.2 else dget rest k

/-- Python dict write d[k] = v: replace the binding in place if the key exists,
otherwise append it at the end (insertion order). -/
def dset {α : Type} : List (String × α) → String → α → List (String × α)
  | [], k, v => [(k, v)]
  | p :: rest, k, v => if p.1 = k then (k, v) :: rest else p :: dset rest k v

/-- Python dict delete del d[k] (a no-op when the key is absent, matching the
guarded deletes in the code). -/
def ddel {α : Type} : List (String × α) → String → List (String × α)
  | [], _ => []
  | p :: rest, k => if p.1 = k then rest else p :: ddel rest k

/-- Room settings dict as parsed by the create endpoint (rooms.py). -/
structure Settings where
  rounds : Nat
  draw_time : Int
  word_difficulty : String
  max_players : Nat
deriving DecidableEq

/-- The game_state dict of a room (game_handlers.py handle_start_game and
memory_service.py create_room). -/
structure GameState where
  current_round : Nat
  current_drawer : Option String
  current_word : Option String
  scores : List (String × Int)
  turn_start_time : Option ℚ
  words_used : List String
  players_guessed : List String
  drawer_order : List String
  current_drawer_index : Nat
deriving DecidableEq

/-- A room record as stored in MemoryService.active_rooms. -/
structure Room where
  id : String
  host : String
  name : Option String
  players : List String
  max_players : Nat
  status : String
  settings : Settings
  game_state : GameState
deriving DecidableEq

/-- GameConfig.MIN_PLAYERS from config.py. -/
def MIN_PLAYERS : Nat := 2

/-- GameConfig.MAX_PLAYERS from config.py. -/
def MAX_PLAYERS : Nat := 12

/-- GameConfig.MIN_ROUNDS from config.py. -/
def MIN_ROUNDS : Nat := 1

/-- GameConfig.MAX_ROUNDS from config.py. -/
def MAX_ROUNDS : Nat := 10

/-- GameConfig.MIN_DRAW_TIME from config.py. -/
def MIN_DRAW_TIME : Int := 30

/-- GameConfig.MAX_DRAW_TIME from config.py. -/
def MAX_DRAW_TIME : Int := 300

/-- GameConfig.WORD_DIFFICULTIES from config.py. -/
def WORD_DIFFICULTIES : List String := ["easy", "medium", "hard"]

/-- Default settings dict used by MemoryService.create_room when none are
given. -/
def defaultSettings : Settings :=
  { rounds := 3, draw_time := 80, word_difficulty := "medium", max_players := 8 }

/-- MemoryService.create_room (memory_service.py): the room-level max_players
field is the literal 8 from the source, independent of the settings dict. -/
def create_room (room_id host_id : String) (settings : Option Settings)
    (name : Option String) : Room :=
  let s := settings.getD defaultSettings
  { id := room_id
    host := host_id
    name := name
    players := [host_id]
    max_players := 8
    status := "waiting"
    settings := s
    game_state :=
      { current_round := 0
        current_drawer := none
        current_word := none
        scores := [(host_id, 0)]
        turn_start_time := none
        words_used := []
        players_guessed := []
        drawer_order := []
        current_drawer_index := 0 } }

/-- MemoryService.add_player_to_room: returns the Python boolean result
together with the room after the mutation. -/
def add_player_to_room (room : Room) (player_id : String) : Bool × Room :=
  if player_id ∉ room.players then
    if room.players.length < room.max_players then
      (true,
        { room with
          players := room.players ++ [player_id]
          game_state :=
            { room.game_state with
              scores := dset room.game_state.scores player_id 0 } })
    else (false, room)
  else (false, room)

/-- MemoryService.remove_player_from_room: none models the Python None result,
returned both when the player is absent and when the emptied room is deleted. -/
def remove_player_from_room (room : Room) (player_id : String) : Option Room :=
  if player_id ∈ room.players then
    let players1 := room.players.erase player_id
    let scores1 := ddel room.game_state.scores player_id
    let host1 :=
      if room.host = player_id ∧ players1 ≠ [] then players1.headD room.host
      else room.host
    if players1 = [] then none
    else
      some
        { room with
          players := players1
          host := host1
          game_state := { room.game_state with scores := scores1 } }
  else none

/-- Outcome codes of the join_room HTTP route (rooms.py), in the order the
route tests them. -/
inductive JoinResult
  | gameInProgress
  | alreadyInRoom
  | roomFull
  | joined
  | joinFailed
deriving DecidableEq

/-- rooms.py join_room after authentication and room lookup succeeded: the
sequence of checks guarding memory_service.add_player_to_room. -/
def join_room (room : Room) (user_id : String) : JoinResult × Room :=
  if room.status ≠ "waiting" then (JoinResult.gameInProgress, room)
  else if user_id ∈ room.players then (JoinResult.alreadyInRoom, room)
  else if room.players.length ≥ room.max_players then (JoinResult.roomFull, room)
  else
    let res := add_player_to_room room user_id
    if res.1 then (JoinResult.joined, res.2) else (JoinResult.joinFailed, room)

/-- rooms.py create_room endpoint after authentication: the four setting
validations against the GameConfig bounds, then MemoryService.create_room. -/
def create_room_endpoint (room_id user_id : String) (s : Settings)
    (name : Option String) : Except String Room :=
  if ¬ (MIN_ROUNDS ≤ s.rounds ∧ s.rounds ≤ MAX_ROUNDS) then
    Except.error "invalid rounds"
  else if ¬ (MIN_DRAW_TIME ≤ s.draw_time ∧ s.draw_time ≤ MAX_DRAW_TIME) then
    Except.error "invalid draw_time"
  else if s.word_difficulty ∉ WORD_DIFFICULTIES then
    Except.error "invalid word difficulty"
  else if ¬ (MIN_PLAYERS ≤ s.max_players ∧ s.max_players ≤ MAX_PLAYERS) then
    Except.error "invalid max_players"
  else Except.ok (create_room room_id user_id (some s) name)

/-- WordService.validate_word, parametrised by the loaded words_cache
(difficulty → word list) since the JSON word files live outside the core. -/
def validate_word (cache : List (String × List String)) (word : String)
    (difficulty : String) : Bool :=
  match dget cache difficulty with
  | none => false
  | some ws => (ws.map pyLower).contains (pyLower word)

/-- Indices of the non-space characters of a word
(the letter_positions comprehension in word_service.py). -/
def letter_positions (w : String) : List Nat :=
  ((w.data.enum).filter (fun p => p.2 ≠ ' ')).map (fun p => p.1)

/-- Characters of a word with all spaces removed
(Python word.replace applied with a space and the empty string). -/
def lettersOnly (w : String) : List Char := w.data.filter (fun c => c ≠ ' ')

/-- WordService.get_word_hint in the list-of-positions mode used by
get_progressive_hint: lowercase the word, render a revealed position as its
uppercase character, a space as a space, anything else as an underscore, and
join the pieces with single spaces. The integer compatibility mode of the
Python function draws random positions and is used nowhere in the engine. -/
def get_word_hint (word : String) (revealed : List Nat) : String :=
  if word = "" then ""
  else
    String.intercalate " "
      (((pyLower word).data.enum).map (fun p =>
        if p.2 = ' ' then " "
        else if p.1 ∈ revealed then String.mk [p.2.toUpper]
        else "_"))

/-- WordService.get_progressive_hint: before 10 seconds (or for an empty word)
the hint is one underscore per non-space letter, joined by nothing; afterwards
min(3, (elapsed-10)//10 + 1) positions are revealed in the order first letter,
last letter, middle letter, each guarded by the available word length. -/
def get_progressive_hint (word : String) (elapsed_seconds : ℚ) : String :=
  if word = "" ∨ elapsed_seconds < 10 then
    String.mk (List.replicate (lettersOnly word).length '_')
  else
    let letters_to_reveal : Int := min 3 (⌊(elapsed_seconds - 10) / 10⌋ + 1)
    let lp := letter_positions word
    if lp = [] then word
    else
      let r1 := if 1 ≤ letters_to_reveal ∧ 1 ≤ lp.length then [lp.headD 0] else []
      let r2 := if 2 ≤ letters_to_reveal ∧ 2 ≤ lp.length then [lp.getLastD 0] else []
      let r3 :=
        if 3 ≤ letters_to_reveal ∧ 3 ≤ lp.length then [lp.getD (lp.length / 2) 0]
        else []
      get_word_hint word (r1 ++ r2 ++ r3)

/-- Observable effects of a handler: socket emissions and timer commands, in
program order. Raw wall-clock timestamps inside payloads are omitted. -/
inductive Ev
  | errorMsg (message : String)
  | roundStarted (round : Nat) (drawer : String)
  | wordSelectionStarted (drawer_id : String) (words : List String)
    (time_limit : Nat)
  | wordSelectedDrawer (word : String) (drawer_id : String)
  | wordSelectedOthers (word_hint : String) (word_length : Nat)
    (drawer_id : String)
  | drawingStarted (drawer_id : Option String) (word_hint : String)
    (time_limit : Int)
  | correctGuess (player_id : String) (word : String) (score : Int)
    (speed_bonus : Int) (scores : List (String × Int))
  | guessCorrect (score : Int) (word : String)
  | chatMessage (user_id : String) (message : String) (msgType : String)
  | turnEnded (word : Option String) (drawer : Option String)
    (results : List (String × String × Int)) (scores : List (String × Int))
    (timeout : Bool) (all_guessed : Bool)
  | roundComplete (next_round : Nat)
  | gameEnded (winner : Option (String × Int)) (total_rounds : Nat)
  | drawDataStart (x y : ℚ) (color : String) (size : ℚ) (tool : String)
  | drawDataMove (x y : ℚ)
  | drawDataEnd
  | startTimer (kind : String) (duration : Int)
  | stopTimer
deriving DecidableEq

/-- Result of a state-mutating socket handler: the room afterwards and the
emitted effects. -/
structure HandlerResult where
  room : Room
  events : List Ev
deriving DecidableEq

/-- Stable insertion of one result row into a list already sorted by
descending score (third component). -/
def insertByScore (x : String × String × Int) :
    List (String × String × Int) → List (String × String × Int)
  | [] => [x]
  | y :: ys => if y.2.2 < x.2.2 then x :: y :: ys else y :: insertByScore x ys

/-- Python list.sort with a score key and reverse=True: a stable sort by
descending score. -/
def sortByScore (l : List (String × String × Int)) :
    List (String × String × Int) :=
  l.foldl (fun acc x => insertByScore x acc) []

/-- Result rows built by _end_turn and _end_game: every player that still has
a user session, with username and current score, defaulting a missing score
entry to 0. The usernames parameter is the user_sessions registry restricted
to the username field. -/
def roomResults (usernames : List (String × String)) (room : Room) :
    List (String × String × Int) :=
  room.players.filterMap (fun pid =>
    (dget usernames pid).map (fun u =>
      (pid, u, (dget room.game_state.scores pid).getD 0)))

/-- game_handlers.py _end_turn: snapshot the results, emit turn_ended, start
the 5 second results timer, and only afterwards add the +50 drawer bonus to
the stored scores when every guesser found the word. -/
def end_turn (usernames : List (String × String)) (room : Room)
    (timeout all_guessed : Bool) : Room × List Ev :=
  let gs := room.game_state
  let results := sortByScore (roomResults usernames room)
  let evs :=
    [Ev.turnEnded gs.current_word gs.current_drawer results gs.scores timeout
      all_guessed,
     Ev.startTimer "results" 5]
  let room1 :=
    if all_guessed then
      match gs.current_drawer with
      | some d =>
        let scores1 := if dget gs.scores d = none then dset gs.scores d 0
                       else gs.scores
        { room with
          game_state :=
            { gs with scores := dset scores1 d ((dget scores1 d).getD 0 + 50) } }
      | none => room
    else room
  (room1, evs)

/-- game_handlers.py _end_game: final results, winner, status ended,
game_ended emission and timer cleanup. -/
def end_game (usernames : List (String × String)) (room : Room) :
    Room × List Ev :=
  let final := sortByScore (roomResults usernames room)
  let winner := final.head?
  let room1 := { room with status := "ended" }
  (room1,
   [Ev.gameEnded (winner.map (fun w => (w.2.1, w.2.2))) room.settings.rounds,
    Ev.stopTimer])

/-- game_handlers.py _start_new_round: end the game when the round counter has
passed settings.rounds or the drawer index fell outside drawer_order,
otherwise select drawer_order[current_drawer_index], clear the per-turn
fields and enter the word-selection phase (word options supplied by the word
service are a parameter here because they are drawn at random). -/
def start_new_round (usernames : List (String × String))
    (wordOptions : List String) (room : Room) : Room × List Ev :=
  let gs := room.game_state
  if gs.current_round > room.settings.rounds then end_game usernames room
  else if gs.current_drawer_index ≥ gs.drawer_order.length then
    end_game usernames room
  else
    let current_drawer := gs.drawer_order.getD gs.current_drawer_index ""
    let room1 :=
      { room with
        game_state :=
          { gs with
            current_drawer := some current_drawer
            current_word := none
            players_guessed := []
            turn_start_time := none } }
    (room1,
     [Ev.roundStarted gs.current_round current_drawer,
      Ev.wordSelectionStarted current_drawer wordOptions 10,
      Ev.startTimer "word_selection" 10])

/-- game_handlers.py _start_next_turn_or_round, run when the results timer
expires: advance the drawer index, roll over into the next round when the
order is exhausted, and end the game exactly when the incremented round
exceeds settings.rounds; otherwise run the 3 second intermission or start the
next turn directly. -/
def start_next_turn_or_round (usernames : List (String × String))
    (wordOptions : List String) (room : Room) : Room × List Ev :=
  let gs := room.game_state
  let next_index := gs.current_drawer_index + 1
  if next_index ≥ gs.drawer_order.length then
    let next_round := gs.current_round + 1
    let room1 :=
      { room with
        game_state :=
          { gs with current_round := next_round, current_drawer_index := 0 } }
    if next_round > room.settings.rounds then end_game usernames room1
    else (room1, [Ev.roundComplete next_round, Ev.startTimer "intermission" 3])
  else
    let room1 :=
      { room with game_state := { gs with current_drawer_index := next_index } }
    start_new_round usernames wordOptions room1

/-- game_handlers.py _start_drawing_phase: refresh turn_start_time, announce
drawing_started with a fully masked hint, and start the drawing timer. When
current_word is unset the Python body raises on len(None) inside its own
try block and produces no effect. The progressive-hint background timers are
time-driven emissions modelled separately through get_progressive_hint. -/
def start_drawing_phase (room : Room) (now : ℚ) : HandlerResult :=
  match room.game_state.current_word with
  | none => { room := room, events := [] }
  | some w =>
    let room1 :=
      { room with
        game_state := { room.game_state with turn_start_time := some now } }
    { room := room1
      events :=
        [Ev.drawingStarted room.game_state.current_drawer
          (String.mk (List.replicate (lettersOnly w).length '_'))
          room.settings.draw_time,
         Ev.startTimer "drawing" room.settings.draw_time] }

/-- game_handlers.py handle_select_word after authentication and room
resolution: reject a caller that is not the current drawer, a missing or
empty word, and a word failing WordService.validate_word; on success set
current_word, append it to words_used, stamp turn_start_time, clear
players_guessed, stop the word-selection timer, notify the drawer and the
other players, and enter the drawing phase. -/
def handle_select_word (cache : List (String × List String)) (room : Room)
    (user_id : String) (word? : Option String) (now : ℚ) : HandlerResult :=
  if room.game_state.current_drawer ≠ some user_id then
    { room := room, events := [Ev.errorMsg "Not your turn to select word"] }
  else
    match word? with
    | none => { room := room, events := [Ev.errorMsg "Word is required"] }
    | some word =>
      if word = "" then
        { room := room, events := [Ev.errorMsg "Word is required"] }
      else if ¬ validate_word cache word room.settings.word_difficulty then
        { room := room, events := [Ev.errorMsg "Invalid word selected"] }
      else
        let gs := room.game_state
        let room1 :=
          { room with
            game_state :=
              { gs with
                current_word := some word
                words_used := gs.words_used ++ [word]
                turn_start_time := some now
                players_guessed := [] } }
        let masked := String.mk (List.replicate (lettersOnly word).length '_')
        let dp := start_drawing_phase room1 now
        { room := dp.room
          events :=
            [Ev.stopTimer,
             Ev.wordSelectedDrawer word user_id,
             Ev.wordSelectedOthers masked word.length user_id]
            ++ dp.events }

/-- game_handlers.py handle_guess after authentication and room resolution.
Order of the checks follows the source: drawer rejection, repeat-guesser
rejection, normalisation, empty-guess rejection, timing, comparison. A room
whose current_word or turn_start_time is None makes the Python body raise
(None.lower() or float minus None) inside the handler try block, which emits
an error and leaves the room unchanged. The speed bonus is
int(time_remaining * 5). -/
def handle_guess (usernames : List (String × String)) (room : Room)
    (user_id : String) (rawGuess : String) (now : ℚ) : HandlerResult :=
  if room.game_state.current_drawer = some user_id then
    { room := room, events := [Ev.errorMsg "You cannot guess your own drawing"] }
  else if user_id ∈ room.game_state.players_guessed then
    { room := room, events := [Ev.errorMsg "You already guessed correctly"] }
  else
    match room.game_state.current_word with
    | none =>
      { room := room, events := [Ev.errorMsg "NoneType has no attribute lower"] }
    | some cw =>
      let guess := pyLower (pyStrip rawGuess)
      let current_word := pyLower cw
      if guess = "" then
        { room := room, events := [Ev.errorMsg "Guess cannot be empty"] }
      else
        match room.game_state.turn_start_time with
        | none =>
          { room := room
            events := [Ev.errorMsg "unsupported operand for float and NoneType"] }
        | some turn_start =>
          let time_elapsed := now - turn_start
          let time_remaining :=
            max 0 ((room.settings.draw_time : ℚ) - time_elapsed)
          if guess = current_word then
            let base_score : Int := 100
            let speed_bonus : Int := ⌊time_remaining * 5⌋
            let final_score := base_score + speed_bonus
            let gs := room.game_state
            let scores1 :=
              if dget gs.scores user_id = none then dset gs.scores user_id 0
              else gs.scores
            let scores2 :=
              dset scores1 user_id ((dget scores1 user_id).getD 0 + final_score)
            let guessed1 := gs.players_guessed ++ [user_id]
            let room1 :=
              { room with
                game_state :=
                  { gs with scores := scores2, players_guessed := guessed1 } }
            let evs :=
              [Ev.correctGuess user_id current_word final_score speed_bonus
                scores2,
               Ev.guessCorrect final_score current_word]
            let eligible := room.players.filter (fun p => p ≠ user_id)
            if eligible.length ≤ guessed1.length then
              let et := end_turn usernames room1 false true
              { room := et.1, events := evs ++ [Ev.stopTimer] ++ et.2 }
            else { room := room1, events := evs }
          else
            { room := room, events := [Ev.chatMessage user_id guess "guess"] }

/-- game_handlers.py handle_turn_timeout: no authentication, membership or
phase check is performed (the function never consults the caller), and the
only guard is that a room_id is present in the payload and names a live
room; then _end_turn runs with timeout=True. -/
def handle_turn_timeout (rooms : List (String × Room))
    (usernames : List (String × String)) (data_room_id : Option String) :
    List Ev :=
  match data_room_id with
  | none => []
  | some rid =>
    match dget rooms rid with
    | none => []
    | some room => (end_turn usernames room true false).2

/-- drawing_handlers.py handle_draw_start after authentication and room
resolution. A coordinate or size argument of none models a payload value that
is not a number (a missing size defaults to the number 5 before the check, a
missing coordinate fails the isinstance test). The drawer gate only fires
when current_drawer is set: a None drawer lets anyone draw. -/
def handle_draw_start (room : Room) (user_id : String) (x? y? : Option ℚ)
    (color : String) (size? : Option ℚ) (tool : String) : List Ev :=
  let gate :=
    match room.game_state.current_drawer with
    | some d => d != user_id
    | none => false
  if gate then [Ev.errorMsg "Not your turn to draw"]
  else
    match x?, y? with
    | some x, some y =>
      match size? with
      | some size =>
        if size < 1 ∨ 50 < size then [Ev.errorMsg "Invalid brush size"]
        else if tool ∉ ["brush", "eraser"] then [Ev.errorMsg "Invalid tool"]
        else [Ev.drawDataStart x y color size tool]
      | none => [Ev.errorMsg "Invalid brush size"]
    | _, _ => [Ev.errorMsg "Invalid coordinates"]

/-- drawing_handlers.py handle_draw_move: same drawer gate as draw_start,
then the coordinate validation only. -/
def handle_draw_move (room : Room) (user_id : String) (x? y? : Option ℚ) :
    List Ev :=
  let gate :=
    match room.game_state.current_drawer with
    | some d => d != user_id
    | none => false
  if gate then [Ev.errorMsg "Not your turn to draw"]
  else
    match x?, y? with
    | some x, some y => [Ev.drawDataMove x y]
    | _, _ => [Ev.errorMsg "Invalid coordinates"]

/-- drawing_handlers.py handle_draw_end: same drawer gate, no payload
validation. -/
def handle_draw_end (room : Room) (user_id : String) : List Ev :=
  let gate :=
    match room.game_state.current_drawer with
    | some d => d != user_id
    | none => false
  if gate then [Ev.errorMsg "Not your turn to draw"]
  else [Ev.drawDataEnd]

/-- Projection of _start_next_turn_or_round to the two game_state fields it
computes with, (current_round, current_drawer_index), for a drawer order of
length n and a rounds setting: none means the game ends. -/
def advanceTurn (n rounds : Nat) (st : Nat × Nat) : Option (Nat × Nat) :=
  let next_index := st.2 + 1
  if next_index ≥ n then
    let next_round := st.1 + 1
    if next_round > rounds then none else some (next_round, 0)
  else some (st.1, next_index)

/-- Projection of the guard checks and drawer selection of _start_new_round:
the index of the selected drawer, or none when the function ends the game
instead. -/
def selectDrawerIndex (n rounds : Nat) (st : Nat × Nat) : Option Nat :=
  if st.1 > rounds then none
  else if st.2 ≥ n then none
  else some st.2

/-- Fuel-bounded iteration of one full game at the (round, index) projection:
the sequence of drawer indices selected by _start_new_round, advanced after
every turn by _start_next_turn_or_round. -/
def drawSeq (n rounds : Nat) : Nat → Nat × Nat → List Nat
  | 0, _ => []
  | fuel + 1, st =>
    match selectDrawerIndex n rounds st with
    | none => []
    | some i =>
      i ::
        (match advanceTurn n rounds st with
         | none => []
         | some st1 => drawSeq n rounds fuel st1)

/-- Drawer of every turn of one full game played to completion from the state
set by handle_start_game (current_round = 1, current_drawer_index = 0), for a
fixed drawer_order. -/
def gameDrawers (order : List String) (rounds : Nat) : List String :=
  (drawSeq order.length rounds (order.length * rounds) (1, 0)).map
    (fun i => order.getD i "")

/-- Modelled from the spec: number of positions the progressive hint reveals
at a given elapsed time, min(3, max(0, floor((elapsed - 10)/10) + 1)). -/
def revealCountSpec (t : ℚ) : Int := min 3 (max 0 (⌊(t - 10) / 10⌋ + 1))

/-- Modelled from the spec: the first k entries of the fixed reveal order
first letter, last letter, middle letter (positions[len/2]) over the
non-space positions of the word. -/
def specRevealList (w : String) (k : Int) : List Nat :=
  let lp := letter_positions w
  if lp = [] then []
  else [lp.headD 0, lp.getLastD 0, lp.getD (lp.length / 2) 0].take k.toNat

/-- Modelled from the spec: render a hint by writing every revealed position
as its (uppercase) letter and every other letter as an underscore, keeping
spaces, joined by single spaces. -/
def renderHintSpec (w : String) (revealed : List Nat) : String :=
  String.intercalate " "
    (((pyLower w).data.enum).map (fun p =>
      if p.2 = ' ' then " "
      else if p.1 ∈ revealed then String.mk [p.2.toUpper]
      else "_"))

/-- Modelled from the spec: the reference progressive hint that claim C4
describes, combining the spec reveal count, reveal order and renderer. -/
def referenceHint (w : String) (t : ℚ) : String :=
  renderHintSpec w (specRevealList w (revealCountSpec t))

/-- A room is in the word-selection phase of a turn when the game is running
and the word for the current turn has not been chosen yet (the code keeps no
explicit phase field; _start_new_round clears current_word on entering the
phase and handle_select_word fills it on leaving it). -/
def inWordSelection (room : Room) : Prop :=
  room.status = "playing" ∧ room.game_state.current_word = none

/-- The registry invariant of claim C7. -/
def hostInRoom (room : Room) : Prop :=
  room.host ∈ room.players ∨ room.players = []

/-- Fixture for claim C1: a three-player room mid-drawing, word cat, drawing
started at time 0 with an 80 second draw_time. -/
def c1Room : Room :=
  { id := "ROOM01"
    host := "alice"
    name := none
    players := ["alice", "bob", "carol"]
    max_players := 8
    status := "playing"
    settings := { rounds := 3, draw_time := 80, word_difficulty := "easy",
                  max_players := 8 }
    game_state :=
      { current_round := 1
        current_drawer := some "alice"
        current_word := some "cat"
        scores := [("alice", 0), ("bob", 0), ("carol", 0)]
        turn_start_time := some 0
        words_used := ["cat"]
        players_guessed := []
        drawer_order := ["alice", "bob", "carol"]
        current_drawer_index := 0 } }

/-- Username registry for the concrete fixtures. -/
def fixtureUsers : List (String × String) :=
  [("alice", "alice"), ("bob", "bob"), ("carol", "carol")]

/-- Fixture for claim C2: a two-player room at the end of a turn in which the
only guesser (bob) earned 320 points and the drawer (alice) still has 0. -/
def c2Room : Room :=
  { id := "ROOM02"
    host := "alice"
    name := none
    players := ["alice", "bob"]
    max_players := 8
    status := "playing"
    settings := { rounds := 1, draw_time := 60, word_difficulty := "easy",
                  max_players := 2 }
    game_state :=
      { current_round := 1
        current_drawer := some "alice"
        current_word := some "cat"
        scores := [("alice", 0), ("bob", 320)]
        turn_start_time := some 0
        words_used := ["cat"]
        players_guessed := ["bob"]
        drawer_order := ["alice", "bob"]
        current_drawer_index := 0 } }

/-- Fixture for claim C3: a room already in the drawing phase (current_word
is set), whose drawer alice re-selects a different valid word. -/
def c3Room : Room :=
  { id := "ROOM03"
    host := "alice"
    name := none
    players := ["alice", "bob"]
    max_players := 8
    status := "playing"
    settings := { rounds := 3, draw_time := 80, word_difficulty := "medium",
                  max_players := 8 }
    game_state :=
      { current_round := 1
        current_drawer := some "alice"
        current_word := some "cat"
        scores := [("alice", 0), ("bob", 0)]
        turn_start_time := some 5
        words_used := ["cat"]
        players_guessed := ["bob"]
        drawer_order := ["alice", "bob"]
        current_drawer_index := 0 } }

/-- Word cache fixture: the medium difficulty hosts cat and dog. -/
def c3Cache : List (String × List String) := [("medium", ["cat", "dog"])]

/-- Fixture for claim C5: a playing room with spare capacity. -/
def c5RoomPlaying : Room :=
  { c1Room with
    id := "ROOM05"
    players := ["alice", "bob"]
    game_state :=
      { c1Room.game_state with
        scores := [("alice", 0), ("bob", 0)]
        drawer_order := ["alice", "bob"] } }

/-- Fixture for claim C5: a waiting room that already contains alice. -/
def c5RoomWaiting : Room := create_room "ROOM5W" "alice" none none

/-- Fixture for claim C6: the validated create request with max_players 2. -/
def c6Settings : Settings :=
  { rounds := 3, draw_time := 80, word_difficulty := "medium", max_players := 2 }

/-- Fixture for claim C6: the room the create endpoint builds from
c6Settings. -/
def c6Room : Room := create_room "ROOM06" "alice" (some c6Settings) none

/-- Fixture for claim C9: a waiting room, where current_drawer is None. -/
def c9Room : Room := create_room "ROOM09" "alice" none none

/-- Fixture for claim C9: c9Room after bob joined. -/
def c9Room2 : Room := (join_room c9Room "bob").2

/-- Boolean recogniser for error emissions. -/
def isErrorEv : Ev → Bool
  | Ev.errorMsg _ => true
  | _ => false

/-- Fixture for claim C7: a waiting room holding alice (host) and bob. -/
def c7Room : Room := (add_player_to_room (create_room "ROOM07" "alice" none none) "bob").2

/-- Fixture for claim C7: c7Room after the host alice left, with bob promoted. -/
def c7RoomAfter : Room :=
  { c7Room with
    players := ["bob"]
    host := "bob"
    game_state := { c7Room.game_state with scores := [("bob", 0)] } }

/-- Fixture for claim C8: a playing room at round 1 with two drawers, after the
first turn of the round ended. -/
def c8Room : Room :=
  { id := "ROOM08"
    host := "alice"
    name := none
    players := ["alice", "bob"]
    max_players := 8
    status := "playing"
    settings := { rounds := 1, draw_time := 80, word_difficulty := "easy",
                  max_players := 8 }
    game_state :=
      { current_round := 1
        current_drawer := some "alice"
        current_word := some "cat"
        scores := [("alice", 0), ("bob", 0)]
        turn_start_time := some 0
        words_used := ["cat"]
        players_guessed := ["bob"]
        drawer_order := ["alice", "bob"]
        current_drawer_index := 1 } }

/-- Fixture for claim C10: a playing room mid-turn, reachable by any client
through a bare turn_timeout payload. -/
def c10Room : Room :=
  { id := "ROOM10"
    host := "alice"
    name := none
    players := ["alice", "bob"]
    max_players := 8
    status := "playing"
    settings := { rounds := 2, draw_time := 80, word_difficulty := "easy",
                  max_players := 8 }
    game_state :=
      { current_round := 1
        current_drawer := some "alice"
        current_word := some "dog"
        scores := [("alice", 0), ("bob", 140)]
        turn_start_time := some 0
        words_used := ["dog"]
        players_guessed := []
        drawer_order := ["alice", "bob"]
        current_drawer_index := 0 } }

theorem dget_dset_self {α : Type} (d : List (String × α)) (k : String) (v : α) :
    dget (dset d k v) k = some v := by
  induction d with
  | nil => simp [dget, dset]
  | cons p rest ih =>
    by_cases h : p.1 = k
    · simp [dget, dset, h]
    · simpa [dget, dset, h] using ih

theorem dget_dset_ne {α : Type} (d : List (String × α)) (k k' : String) (v : α)
    (h : k' ≠ k) : dget (dset d k v) k' = dget d k' := by
  induction d with
  | nil => simp [dget, dset, Ne.symm h]
  | cons p rest ih =>
    by_cases hp : p.1 = k
    · subst hp
      simp [dget, dset, Ne.symm h]
    · by_cases hp' : p.1 = k'
      · simp [dget, dset, hp, hp', h]
      · simpa [dget, dset, hp, hp'] using ih

/-- Claim C2: when a turn ends with all_guessed, _end_turn emits the
turn_ended snapshot first and only afterwards adds the +50 drawer bonus: at
the fixture the emitted results and scores still show the drawer alice at 0
while the stored room has her at 50. -/
theorem C2_code_eval :
    (end_turn fixtureUsers c2Room false true).2 =
      [Ev.turnEnded (some "cat") (some "alice")
        [("bob", "bob", 320), ("alice", "alice", 0)]
        [("alice", 0), ("bob", 320)] false true,
       Ev.startTimer "results" 5] ∧
    dget (end_turn fixtureUsers c2Room false true).1.game_state.scores "alice"
      = some 50 ∧
    dget (end_turn fixtureUsers c2Room false true).1.game_state.scores "bob"
      = some 320 := by
  decide

/-- Claim C6: a room created with validated max_players = 2 still gets the
hard-coded room-level max_players = 8, and the join route, which compares
against the room-level field, admits a third player instead of rejecting with
ROOM_FULL at 2. -/
theorem C6_code_eval :
    create_room_endpoint "ROOM06" "alice" c6Settings none = Except.ok c6Room ∧
    c6Room.settings.max_players = 2 ∧
    c6Room.max_players = 8 ∧
    (join_room c6Room "bob").1 = JoinResult.joined ∧
    (join_room (join_room c6Room "bob").2 "carol").1 = JoinResult.joined ∧
    (join_room (join_room c6Room "bob").2 "carol").2.players =
      ["alice", "bob", "carol"] := by
  refine ⟨rfl, by decide, by decide, by decide, by decide, by decide⟩

/-- Claim C9 (amended part): whenever a current drawer is set and the caller
is a different user, each of the three drawing handlers answers with exactly
one error event and rebroadcasts nothing. -/
theorem C9_drawer_gate :
    ∀ (room : Room) (user d : String) (x? y? : Option ℚ) (color : String)
      (size? : Option ℚ) (tool : String),
      room.game_state.current_drawer = some d → user ≠ d →
      handle_draw_start room user x? y? color size? tool =
          [Ev.errorMsg "Not your turn to draw"] ∧
      handle_draw_move room user x? y? = [Ev.errorMsg "Not your turn to draw"] ∧
      handle_draw_end room user = [Ev.errorMsg "Not your turn to draw"] := by
  intro room user d x? y? color size? tool hd hne
  refine ⟨?_, ?_, ?_⟩ <;>
    simp [handle_draw_start, handle_draw_move, handle_draw_end, hd,
      Ne.symm hne]

/-- Claim C9 witness: a concrete non-drawer caller is rejected by all three
handlers. -/
theorem C9_drawer_gate_witness :
    c1Room.game_state.current_drawer = some "alice" ∧
    handle_draw_end c1Room "bob" = [Ev.errorMsg "Not your turn to draw"] := by
  refine ⟨by decide, ?_⟩
  exact (C9_drawer_gate c1Room "bob" "alice" none none "#000000" none "brush"
    (by decide) (by decide)).2.2

/-- Claim C9 counterexample: in a room whose current_drawer is None (for
example any room before the game starts) a member who is not the drawer gets
a rebroadcast and no error, against the claim that every non-drawer caller is
rejected. -/
theorem C9_counterexample :
    "bob" ∈ c9Room2.players ∧
    c9Room2.game_state.current_drawer = none ∧
    handle_draw_end c9Room2 "bob" = [Ev.drawDataEnd] ∧
    handle_draw_move c9Room2 "bob" (some 1) (some 2) = [Ev.drawDataMove 1 2] := by
  decide

/-- Claim C10: the turn_timeout handler consults neither the caller identity
nor the room phase (the embedding takes no caller argument, matching the
source); for every live room named in the payload it runs _end_turn with
timeout = true, emitting the turn_ended broadcast followed by the 5 second
results timer, and it never emits an error event for any payload. -/
theorem C10_turn_timeout :
    (∀ (rooms : List (String × Room)) (usernames : List (String × String))
       (rid : String) (room : Room), dget rooms rid = some room →
      handle_turn_timeout rooms usernames (some rid) =
        [Ev.turnEnded room.game_state.current_word
          room.game_state.current_drawer
          (sortByScore (roomResults usernames room)) room.game_state.scores
          true false,
         Ev.startTimer "results" 5]) ∧
    (∀ (rooms : List (String × Room)) (usernames : List (String × String))
       (rid? : Option String) (m : String),
      Ev.errorMsg m ∉ handle_turn_timeout rooms usernames rid?) := by
  constructor
  · intro rooms usernames rid room h
    simp [handle_turn_timeout, h, end_turn]
  · intro rooms usernames rid? m
    match rid? with
    | none => simp [handle_turn_timeout]
    | some rid =>
      simp only [handle_turn_timeout]
      match dget rooms rid with
      | none => simp
      | some room => simp [end_turn]

/-- Claim C5 (amended): the status gate and the idempotent success for an
already-present player live in the join_room route, not in
add_player_to_room; the route rejects a non-waiting room with
GAME_IN_PROGRESS, answers an already-present user with unchanged success,
rejects a full room with ROOM_FULL, and otherwise appends the player and
seeds their score with 0; add_player_to_room itself succeeds exactly when the
player is absent and the room is below its room-level max_players. -/
theorem C5_join_room :
    ∀ (room : Room) (user : String),
      (room.status ≠ "waiting" →
        join_room room user = (JoinResult.gameInProgress, room)) ∧
      (room.status = "waiting" → user ∈ room.players →
        join_room room user = (JoinResult.alreadyInRoom, room)) ∧
      (room.status = "waiting" → user ∉ room.players →
        room.max_players ≤ room.players.length →
        join_room room user = (JoinResult.roomFull, room)) ∧
      (room.status = "waiting" → user ∉ room.players →
        room.players.length < room.max_players →
        (join_room room user).1 = JoinResult.joined ∧
        (join_room room user).2.players = room.players ++ [user] ∧
        dget (join_room room user).2.game_state.scores user = some 0 ∧
        (∀ k, k ≠ user →
          dget (join_room room user).2.game_state.scores k =
            dget room.game_state.scores k)) ∧
      ((add_player_to_room room user).1 = true ↔
        user ∉ room.players ∧ room.players.length < room.max_players) := by
  intro room user
  refine ⟨?_, ?_, ?_, ?_, ?_⟩
  · intro h
    simp [join_room, h]
  · intro hs hm
    simp [join_room, hs, hm]
  · intro hs hm hf
    simp [join_room, hs, hm, hf, Nat.not_lt.mpr hf]
  · intro hs hm hlt
    have hnot : ¬ room.players.length ≥ room.max_players := Nat.not_le.mpr hlt
    refine ⟨?_, ?_, ?_, ?_⟩
    · simp [join_room, hs, hm, hnot, add_player_to_room, hlt]
    · simp [join_room, hs, hm, hnot, add_player_to_room, hlt]
    · simp [join_room, hs, hm, hnot, add_player_to_room, hlt, dget_dset_self]
    · intro k hk
      simp [join_room, hs, hm, hnot, add_player_to_room, hlt,
        dget_dset_ne _ _ _ _ hk]
  · constructor
    · intro h
      by_cases hm : user ∈ room.players
      · simp [add_player_to_room, hm] at h
      · by_cases hlt : room.players.length < room.max_players
        · exact ⟨hm, hlt⟩
        · simp [add_player_to_room, hm, hlt] at h
    · rintro ⟨hm, hlt⟩
      simp [add_player_to_room, hm, hlt]

/-- Claim C5 witness: a fresh user joins a waiting room below capacity. -/
theorem C5_join_room_witness :
    c5RoomWaiting.status = "waiting" ∧ "bob" ∉ c5RoomWaiting.players ∧
    c5RoomWaiting.players.length < c5RoomWaiting.max_players ∧
    (join_room c5RoomWaiting "bob").1 = JoinResult.joined := by
  refine ⟨by decide, by decide, by decide, ?_⟩
  exact ((C5_join_room c5RoomWaiting "bob").2.2.2.1 (by decide) (by decide)
    (by decide)).1

/-- Claim C5 counterexample: add_player_to_room itself happily adds a player
to a room whose status is playing (the claim says AddPlayer rejects when
status is not waiting), and returns False for a player already present (the
claim says idempotent success). -/
theorem C5_counterexample :
    c5RoomPlaying.status = "playing" ∧
    c5RoomPlaying.players.length < c5RoomPlaying.max_players ∧
    (add_player_to_room c5RoomPlaying "dave").1 = true ∧
    (add_player_to_room c5RoomPlaying "dave").2.players =
      ["alice", "bob", "dave"] ∧
    "alice" ∈ c5RoomWaiting.players ∧ c5RoomWaiting.status = "waiting" ∧
    (add_player_to_room c5RoomWaiting "alice").1 = false := by
  decide

/-- Claim C7: remove_player_from_room erases the player and their score key,
promotes players[0] when the host left a non-empty room, returns none exactly
when the player was absent or the room emptied (and was deleted), and the
host-membership invariant host ∈ players (hence host ∈ players ∨ players = ∅)
is established by create_room and preserved by add_player_to_room and
remove_player_from_room. -/
theorem C7_registry_invariant :
    (∀ (rid host : String) (s : Option Settings) (n : Option String),
      (create_room rid host s n).host ∈ (create_room rid host s n).players) ∧
    (∀ (room : Room) (p : String), room.host ∈ room.players →
      (add_player_to_room room p).2.host ∈ (add_player_to_room room p).2.players) ∧
    (∀ (room : Room) (p : String) (r1 : Room), room.host ∈ room.players →
      remove_player_from_room room p = some r1 → r1.host ∈ r1.players) ∧
    (∀ (room : Room) (p : String) (r1 : Room),
      remove_player_from_room room p = some r1 →
      r1.players = room.players.erase p ∧
      r1.game_state.scores = ddel room.game_state.scores p ∧
      (room.host = p → r1.host = (room.players.erase p).headD room.host) ∧
      (room.host ≠ p → r1.host = room.host)) ∧
    (∀ (room : Room) (p : String),
      remove_player_from_room room p = none ↔
        (p ∉ room.players ∨ room.players.erase p = [])) ∧
    (∀ (room : Room) (p : String) (r1 : Room), room.host ∈ room.players →
      remove_player_from_room room p = some r1 → hostInRoom r1) := by
  have hmech : ∀ (room : Room) (p : String) (r1 : Room),
      remove_player_from_room room p = some r1 →
      p ∈ room.players ∧ room.players.erase p ≠ [] ∧
      r1.players = room.players.erase p ∧
      r1.game_state.scores = ddel room.game_state.scores p ∧
      (room.host = p → r1.host = (room.players.erase p).headD room.host) ∧
      (room.host ≠ p → r1.host = room.host) := by
    intro room p r1 h
    by_cases hm : p ∈ room.players
    · by_cases he : room.players.erase p = []
      · simp [remove_player_from_room, hm, he] at h
      · simp only [remove_player_from_room, hm, if_true, he, if_false,
          Option.some.injEq] at h
        subst h
        refine ⟨hm, he, rfl, rfl, ?_, ?_⟩
        · intro hh
          simp [hh, he]
        · intro hh
          simp [hh]
    · simp [remove_player_from_room, hm] at h
  have hinv : ∀ (room : Room) (p : String) (r1 : Room),
      room.host ∈ room.players →
      remove_player_from_room room p = some r1 → r1.host ∈ r1.players := by
    intro room p r1 hhost h
    obtain ⟨hm, he, hp, _, hhosteq, hhostne⟩ := hmech room p r1 h
    by_cases hh : room.host = p
    · rw [hp, hhosteq hh]
      match hne : room.players.erase p, he with
      | q :: rest, _ => simp [List.headD]
    · rw [hp, hhostne hh]
      exact (List.mem_erase_of_ne hh).mpr hhost
  refine ⟨?_, ?_, hinv, ?_, ?_, ?_⟩
  · intro rid host s n
    simp [create_room]
  · intro room p hhost
    by_cases hm : p ∈ room.players
    · simp [add_player_to_room, hm, hhost]
    · by_cases hlt : room.players.length < room.max_players
      · simp only [add_player_to_room, hm, not_false_iff, if_true, hlt]
        exact List.mem_append_left _ hhost
      · simp [add_player_to_room, hm, hlt, hhost]
  · intro room p r1 h
    obtain ⟨_, _, h1, h2, h3, h4⟩ := hmech room p r1 h
    exact ⟨h1, h2, h3, h4⟩
  · intro room p
    constructor
    · intro h
      by_cases hm : p ∈ room.players
      · by_cases he : room.players.erase p = []
        · exact Or.inr he
        · simp [remove_player_from_room, hm, he] at h
      · exact Or.inl hm
    · intro h
      rcases h with h | h
      · simp [remove_player_from_room, h]
      · by_cases hm : p ∈ room.players
        · simp [remove_player_from_room, hm, h]
        · simp [remove_player_from_room, hm]
  · intro room p r1 hhost h
    exact Or.inl (hinv room p r1 hhost h)

/-- Claim C7 witness: the host alice leaves c7Room and bob is promoted, so
the surviving room keeps its host among the players. -/
theorem C7_registry_invariant_witness :
    c7Room.host ∈ c7Room.players ∧
    remove_player_from_room c7Room "alice" = some c7RoomAfter ∧
    c7RoomAfter.host ∈ c7RoomAfter.players := by
  refine ⟨by decide, by decide, ?_⟩
  exact C7_registry_invariant.2.2.1 c7Room "alice" c7RoomAfter (by decide)
    (by decide)

theorem drawSeq_row (n rounds : Nat) :
    ∀ (k i r : Nat), i + (k + 1) = n → 1 ≤ r → r ≤ rounds →
      drawSeq n rounds ((k + 1) + (rounds - r) * n) (r, i) =
        List.range' i (k + 1) ++
          (if r = rounds then []
           else drawSeq n rounds ((rounds - r) * n) (r + 1, 0)) := by
  intro k
  induction k with
  | zero =>
    intro i r hi hr1 hr2
    have hfuel : (0 + 1) + (rounds - r) * n = ((rounds - r) * n) + 1 := by
      omega
    rw [hfuel]
    have hnr : ¬ r > rounds := by omega
    have hni : ¬ i ≥ n := by omega
    have hge : i + 1 ≥ n := by omega
    simp only [drawSeq, selectDrawerIndex, advanceTurn, hnr, hni, hge,
      ite_false, ite_true, if_false, if_true]
    by_cases hr : r = rounds
    · have hgt : r + 1 > rounds := by omega
      simp [hgt, hr, List.range'_one]
    · have hngt : ¬ r + 1 > rounds := by omega
      simp [hngt, hr, List.range'_one]
  | succ k ih =>
    intro i r hi hr1 hr2
    have hfuel : (k + 1 + 1) + (rounds - r) * n =
        ((k + 1) + (rounds - r) * n) + 1 := by omega
    rw [hfuel]
    have hnr : ¬ r > rounds := by omega
    have hni : ¬ i ≥ n := by omega
    have hlt : ¬ i + 1 ≥ n := by omega
    simp only [drawSeq, selectDrawerIndex, advanceTurn, hnr, hni, hlt,
      ite_false, ite_true, if_false, if_true]
    rw [ih (i + 1) r (by omega) hr1 hr2]
    simp [List.range'_succ]

theorem drawSeq_rows (n rounds : Nat) (hn : 1 ≤ n) :
    ∀ (m r : Nat), 1 ≤ m → 1 ≤ r → r + m = rounds + 1 →
      drawSeq n rounds (m * n) (r, 0) =
        (List.replicate m (List.range n)).flatten := by
  intro m
  induction m with
  | zero =>
    intro r h1 _ _
    exact absurd h1 (by omega)
  | succ m ih =>
    intro r _ hr1 hrm
    obtain ⟨k, rfl⟩ : ∃ k, n = k + 1 := ⟨n - 1, by omega⟩
    by_cases hm : m = 0
    · subst hm
      have hr : r = rounds := by omega
      have hfuel : 1 * (k + 1) = (k + 1) + (rounds - r) * (k + 1) := by
        subst hr
        simp
      rw [hfuel, drawSeq_row (k + 1) rounds k 0 r (by omega) hr1 (by omega)]
      simp [hr, List.range_eq_range']
    · have hmge : 1 ≤ m := by omega
      have hfuel : (m + 1) * (k + 1) = (k + 1) + (rounds - r) * (k + 1) := by
        have hd : rounds - r = m := by omega
        rw [hd]
        ring
      rw [hfuel, drawSeq_row (k + 1) rounds k 0 r (by omega) hr1 (by omega)]
      have hne : ¬ r = rounds := by omega
      rw [if_neg hne]
      have hd : rounds - r = m := by omega
      rw [hd, ih (r + 1) hmge (by omega) (by omega)]
      simp [List.range_eq_range', List.replicate_succ]

theorem count_flatten_replicate {α : Type} [DecidableEq α] (m : Nat)
    (l : List α) (a : α) :
    ((List.replicate m l).flatten).count a = m * l.count a := by
  induction m with
  | zero => simp
  | succ m ih =>
    simp only [List.replicate_succ, List.flatten_cons, List.count_append, ih]
    ring

theorem getD_range_map {α : Type} (l : List α) (d : α) :
    (List.range l.length).map (fun i => l.getD i d) = l := by
  induction l with
  | nil => simp
  | cons a tl ih =>
    rw [List.length_cons, List.range_succ_eq_map]
    simp only [List.map_cons, List.getD_cons_zero, List.map_map]
    have hc : ((fun i => (a :: tl).getD i d) ∘ Nat.succ) =
        (fun i => tl.getD i d) := by
      funext i
      simp [List.getD_cons_succ]
    rw [hc, ih]

theorem gameDrawers_eq (order : List String) (rounds : Nat)
    (hn : 1 ≤ order.length) (hr : 1 ≤ rounds) :
    gameDrawers order rounds = (List.replicate rounds order).flatten := by
  unfold gameDrawers
  rw [Nat.mul_comm]
  rw [drawSeq_rows order.length rounds hn rounds 1 hr (by omega) (by omega)]
  rw [List.map_flatten, List.map_replicate, getD_range_map]

/-- Claim C8: on results-timer expiry _start_next_turn_or_round increments
the drawer index, rolling it over to 0 with a round increment when it passes
the end of drawer_order, and the game ends (status ended) exactly when the
incremented round exceeds settings.rounds; advanceTurn is the projection of
this step to (current_round, current_drawer_index), drawSeq iterates it from
the initial state (1, 0) collecting the index _start_new_round selects, and
over one full game with a fixed duplicate-free drawer order every player
draws exactly settings.rounds times. -/
theorem C8_drawer_rotation :
    (∀ (usernames : List (String × String)) (wordOptions : List String)
       (room : Room),
      room.status = "playing" →
      room.game_state.current_round ≤ room.settings.rounds →
      room.game_state.current_drawer_index <
        room.game_state.drawer_order.length →
      ((start_next_turn_or_round usernames wordOptions room).1.status =
          "ended" ↔
        (room.game_state.drawer_order.length ≤
            room.game_state.current_drawer_index + 1 ∧
         room.settings.rounds < room.game_state.current_round + 1)) ∧
      (advanceTurn room.game_state.drawer_order.length room.settings.rounds
          (room.game_state.current_round,
           room.game_state.current_drawer_index) = none ↔
        (room.game_state.drawer_order.length ≤
            room.game_state.current_drawer_index + 1 ∧
         room.settings.rounds < room.game_state.current_round + 1)) ∧
      (∀ st1, advanceTurn room.game_state.drawer_order.length
          room.settings.rounds
          (room.game_state.current_round,
           room.game_state.current_drawer_index) = some st1 →
        (start_next_turn_or_round usernames wordOptions
            room).1.game_state.current_round = st1.1 ∧
        (start_next_turn_or_round usernames wordOptions
            room).1.game_state.current_drawer_index = st1.2)) ∧
    (∀ (order : List String) (rounds : Nat) (p : String),
      order.Nodup → p ∈ order → 1 ≤ rounds → 1 ≤ order.length →
      (gameDrawers order rounds).count p = rounds) := by
  constructor
  · intro usernames wordOptions room hst hle hidx
    by_cases h1 : room.game_state.current_drawer_index + 1 ≥
        room.game_state.drawer_order.length
    · by_cases h2 : room.game_state.current_round + 1 > room.settings.rounds
      · refine ⟨?_, ?_, ?_⟩
        · have hT : (start_next_turn_or_round usernames wordOptions
              room).1.status = "ended" := by
            simp [start_next_turn_or_round, h1, h2, end_game]
          exact iff_of_true hT ⟨h1, h2⟩
        · have hT : advanceTurn room.game_state.drawer_order.length
              room.settings.rounds (room.game_state.current_round,
                room.game_state.current_drawer_index) = none := by
            simp [advanceTurn, h1, h2]
          exact iff_of_true hT ⟨h1, h2⟩
        · intro st1 hadv
          simp [advanceTurn, h1, h2] at hadv
      · have hF : (start_next_turn_or_round usernames wordOptions
            room).1.status = "playing" := by
          simp [start_next_turn_or_round, h1, h2, hst]
        have hA : advanceTurn room.game_state.drawer_order.length
            room.settings.rounds (room.game_state.current_round,
              room.game_state.current_drawer_index) =
            some (room.game_state.current_round + 1, 0) := by
          simp [advanceTurn, h1, h2]
        refine ⟨?_, ?_, ?_⟩
        · refine iff_of_false (fun hc => ?_) (fun hc => ?_)
          · rw [hF] at hc
            exact absurd hc (by decide)
          · exact absurd hc.2 h2
        · refine iff_of_false (by simp [hA]) (fun hc => absurd hc.2 h2)
        · intro st1 hadv
          rw [hA] at hadv
          injection hadv with hadv
          rw [← hadv]
          constructor
          · simp [start_next_turn_or_round, h1, h2]
          · simp [start_next_turn_or_round, h1, h2]
    · have hng : ¬ room.game_state.current_round >
          room.settings.rounds := by omega
      have hF : (start_next_turn_or_round usernames wordOptions
          room).1.status = "playing" := by
        simp [start_next_turn_or_round, h1, start_new_round, hng, hst]
      have hA : advanceTurn room.game_state.drawer_order.length
          room.settings.rounds (room.game_state.current_round,
            room.game_state.current_drawer_index) =
          some (room.game_state.current_round,
            room.game_state.current_drawer_index + 1) := by
        simp [advanceTurn, h1]
      refine ⟨?_, ?_, ?_⟩
      · refine iff_of_false (fun hc => ?_) (fun hc => absurd hc.1 h1)
        rw [hF] at hc
        exact absurd hc (by decide)
      · exact iff_of_false (by simp [hA]) (fun hc => absurd hc.1 h1)
      · intro st1 hadv
        rw [hA] at hadv
        injection hadv with hadv
        rw [← hadv]
        constructor
        · simp [start_next_turn_or_round, h1, start_new_round, hng]
        · simp [start_next_turn_or_round, h1, start_new_round, hng]
  · intro order rounds p hnd hp hr hn
    rw [gameDrawers_eq order rounds hn hr, count_flatten_replicate,
      List.count_eq_one_of_mem hnd hp]
    omega

/-- Claim C8 witness: the concrete fixture ends its only round after the last
drawer, and with two players and two rounds each player draws twice. -/
theorem C8_drawer_rotation_witness :
    c8Room.status = "playing" ∧
    c8Room.game_state.current_round ≤ c8Room.settings.rounds ∧
    c8Room.game_state.current_drawer_index <
      c8Room.game_state.drawer_order.length ∧
    ((start_next_turn_or_round fixtureUsers [] c8Room).1.status = "ended" ↔
      (c8Room.game_state.drawer_order.length ≤
          c8Room.game_state.current_drawer_index + 1 ∧
       c8Room.settings.rounds < c8Room.game_state.current_round + 1)) ∧
    (gameDrawers ["alice", "bob"] 2).count "alice" = 2 := by
  refine ⟨by decide, by decide, by decide, ?_, ?_⟩
  · exact (C8_drawer_rotation.1 fixtureUsers [] c8Room (by decide) (by decide)
      (by decide)).1
  · exact C8_drawer_rotation.2 ["alice", "bob"] 2 "alice" (by decide)
      (by decide) (by decide) (by decide)

theorem get_word_hint_eq_render (w : String) (hw : w ≠ "") (A : List Nat) :
    get_word_hint w A = renderHintSpec w A := by
  simp [get_word_hint, renderHintSpec, hw]

theorem renderHintSpec_congr (w : String) (A B : List Nat)
    (h : ∀ i, i ∈ A ↔ i ∈ B) : renderHintSpec w A = renderHintSpec w B := by
  unfold renderHintSpec
  congr 1
  apply List.map_congr_left
  intro p _
  by_cases hsp : p.2 = ' '
  · simp [hsp]
  · simp [hsp, h p.1]

theorem reveal_mem_equiv (lp : List Nat) (hlp : lp ≠ []) (k : Int)
    (hk1 : 1 ≤ k) (hk3 : k ≤ 3) (i : Nat) :
    (i ∈ (if 1 ≤ k ∧ 1 ≤ lp.length then [lp.headD 0] else []) ++
         (if 2 ≤ k ∧ 2 ≤ lp.length then [lp.getLastD 0] else []) ++
         (if 3 ≤ k ∧ 3 ≤ lp.length then [lp.getD (lp.length / 2) 0]
          else [])) ↔
      i ∈ ([lp.headD 0, lp.getLastD 0, lp.getD (lp.length / 2) 0].take
        k.toNat) := by
  rcases lp with _ | ⟨a, _ | ⟨b, _ | ⟨c, rest⟩⟩⟩
  · exact absurd rfl hlp
  · obtain hk | hk | hk : k = 1 ∨ k = 2 ∨ k = 3 := by omega
    all_goals subst hk
    all_goals simp [List.take, List.headD, List.getLastD, List.getD,
      List.get?]
  · obtain hk | hk | hk : k = 1 ∨ k = 2 ∨ k = 3 := by omega
    all_goals subst hk
    all_goals simp [List.take, List.headD, List.getLastD, List.getD,
      List.get?]
  · have h1 : (1 : Nat) ≤ (a :: b :: c :: rest).length := by
      simp only [List.length_cons]; omega
    have h2 : (2 : Nat) ≤ (a :: b :: c :: rest).length := by
      simp only [List.length_cons]; omega
    have h3 : (3 : Nat) ≤ (a :: b :: c :: rest).length := by
      simp only [List.length_cons]; omega
    obtain hk | hk | hk : k = 1 ∨ k = 2 ∨ k = 3 := by omega
    all_goals subst hk
    all_goals simp [List.take, h1, h2, h3]

theorem floor_step_nonneg (t : ℚ) (ht : 10 ≤ t) : 0 ≤ ⌊(t - 10) / 10⌋ :=
  Int.floor_nonneg.mpr (div_nonneg (by linarith) (by norm_num))

theorem revealCountSpec_eq (t : ℚ) (ht : 10 ≤ t) :
    revealCountSpec t = min 3 (⌊(t - 10) / 10⌋ + 1) := by
  have h0 := floor_step_nonneg t ht
  unfold revealCountSpec
  rw [max_eq_right (by omega)]

/-- Claim C4 (amended): the progressive hint agrees with the reference
definition from the spec at every elapsed time of at least 10 seconds for
every word with at least one non-space letter; before 10 seconds the code
returns one underscore per letter without space joining (this is where the
claim fails); the number of revealed positions equals
min(3, floor((t-10)/10)+1) whenever the word offers at least 3 positions, and
the revealed set is monotone in the elapsed time. -/
theorem C4_progressive_hint :
    (∀ (w : String) (t : ℚ), t < 10 →
      get_progressive_hint w t =
        String.mk (List.replicate (lettersOnly w).length '_')) ∧
    (∀ (w : String) (t : ℚ), 10 ≤ t → letter_positions w ≠ [] →
      get_progressive_hint w t = referenceHint w t) ∧
    (∀ (w : String) (t : ℚ), 10 ≤ t → 3 ≤ (letter_positions w).length →
      ((specRevealList w (revealCountSpec t)).length : Int) =
        min 3 (⌊(t - 10) / 10⌋ + 1)) ∧
    (∀ (w : String) (t t1 : ℚ), t ≤ t1 →
      specRevealList w (revealCountSpec t) ⊆
        specRevealList w (revealCountSpec t1)) := by
  refine ⟨?_, ?_, ?_, ?_⟩
  · intro w t ht
    simp [get_progressive_hint, ht]
  · intro w t ht hlp
    have hw : w ≠ "" := by
      intro h
      subst h
      exact hlp rfl
    have hnlt : ¬ t < 10 := not_lt.mpr ht
    have h0 := floor_step_nonneg t ht
    rw [referenceHint, revealCountSpec_eq t ht]
    simp only [get_progressive_hint, hw, hnlt, or_self, if_false,
      ite_false, hlp]
    rw [get_word_hint_eq_render w hw]
    refine renderHintSpec_congr w _ _ (fun i => ?_)
    simp only [specRevealList, hlp, ite_false]
    exact reveal_mem_equiv (letter_positions w) hlp
      (min 3 (⌊(t - 10) / 10⌋ + 1)) (le_min (by norm_num) (by omega))
      (min_le_left _ _) i
  · intro w t ht h3
    have hlp : letter_positions w ≠ [] := by
      intro h
      rw [h] at h3
      simp at h3
    have h0 := floor_step_nonneg t ht
    rw [revealCountSpec_eq t ht]
    simp only [specRevealList, hlp, ite_false]
    rw [List.length_take]
    have hln : ([(letter_positions w).headD 0, (letter_positions w).getLastD 0,
        (letter_positions w).getD ((letter_positions w).length / 2)
          0]).length = 3 := rfl
    rw [hln]
    omega
  · intro w t t1 htt
    by_cases hlp : letter_positions w = []
    · simp [specRevealList, hlp]
    · have hf : ⌊(t - 10) / 10⌋ ≤ ⌊(t1 - 10) / 10⌋ :=
        Int.floor_mono ((div_le_div_iff_of_pos_right
          (by norm_num : (0:ℚ) < 10)).mpr (by linarith))
      have hk : revealCountSpec t ≤ revealCountSpec t1 := by
        unfold revealCountSpec
        omega
      have hmn : (revealCountSpec t).toNat ≤ (revealCountSpec t1).toNat :=
        Int.toNat_le_toNat hk
      intro x hx
      simp only [specRevealList, hlp, ite_false] at hx ⊢
      have h1 : List.take (revealCountSpec t).toNat
          [(letter_positions w).headD 0, (letter_positions w).getLastD 0,
           (letter_positions w).getD ((letter_positions w).length / 2) 0] =
          List.take (revealCountSpec t).toNat
            (List.take (revealCountSpec t1).toNat
              [(letter_positions w).headD 0, (letter_positions w).getLastD 0,
               (letter_positions w).getD ((letter_positions w).length / 2)
                 0]) := by
        rw [List.take_take, Nat.min_eq_left hmn]
      rw [h1] at hx
      exact List.take_subset _ _ hx

/-- Claim C4 witness: for the word cat at 22 seconds the code hint equals the
reference hint, which renders as C _ T. -/
theorem C4_progressive_hint_witness :
    (10 : ℚ) ≤ 22 ∧ letter_positions "cat" ≠ [] ∧
    get_progressive_hint "cat" 22 = referenceHint "cat" 22 ∧
    referenceHint "cat" 22 = "C _ T" := by
  have hc : revealCountSpec 22 = 2 := by
    have hf : ⌊((22 : ℚ) - 10) / 10⌋ = 1 := by
      norm_num [Int.floor_eq_iff]
    unfold revealCountSpec
    rw [hf]
    decide
  have hr : referenceHint "cat" 22 = "C _ T" := by
    rw [referenceHint, hc]
    decide
  exact ⟨by norm_num, by decide,
    C4_progressive_hint.2.1 "cat" 22 (by norm_num) (by decide), hr⟩

/-- Claim C4 counterexample: at any elapsed time below 10 seconds the code
hint is underscores joined by nothing, while the reference rendering of an
empty revealed set is underscores joined by spaces, so the claimed equality
with the reference definition fails at word cat and time 0. -/
theorem C4_counterexample :
    get_progressive_hint "cat" 0 = "___" ∧
    referenceHint "cat" 0 = "_ _ _" ∧
    get_progressive_hint "cat" 0 ≠ referenceHint "cat" 0 := by
  have h1 : get_progressive_hint "cat" 0 = "___" := by
    have hlt : (0 : ℚ) < 10 := by norm_num
    simp only [get_progressive_hint, hlt, or_true, ite_true]
    decide
  have hc : revealCountSpec 0 = 0 := by
    have hf : ⌊((0 : ℚ) - 10) / 10⌋ = -1 := by
      norm_num [Int.floor_eq_iff]
    unfold revealCountSpec
    rw [hf]
    decide
  have h2 : referenceHint "cat" 0 = "_ _ _" := by
    rw [referenceHint, hc]
    decide
  refine ⟨h1, h2, ?_⟩
  rw [h1, h2]
  decide

theorem handle_guess_correct (usernames : List (String × String)) (room : Room)
    (user raw : String) (now : ℚ) (cw : String) (ts : ℚ)
    (h1 : ¬ room.game_state.current_drawer = some user)
    (h2 : user ∉ room.game_state.players_guessed)
    (h3 : room.game_state.current_word = some cw)
    (h4 : room.game_state.turn_start_time = some ts)
    (h5 : pyLower (pyStrip raw) ≠ "")
    (h6 : pyLower (pyStrip raw) = pyLower cw)
    (h7 : ¬ (room.players.filter (fun p => p ≠ user)).length ≤
        room.game_state.players_guessed.length + 1) :
    handle_guess usernames room user raw now =
      { room :=
          { room with
            game_state :=
              { room.game_state with
                scores :=
                  dset
                    (if dget room.game_state.scores user = none then
                      dset room.game_state.scores user 0
                     else room.game_state.scores)
                    user
                    ((dget
                        (if dget room.game_state.scores user = none then
                          dset room.game_state.scores user 0
                         else room.game_state.scores) user).getD 0 +
                      (100 +
                        ⌊max 0 ((room.settings.draw_time : ℚ) - (now - ts)) *
                          5⌋))
                players_guessed := room.game_state.players_guessed ++ [user] } }
        events :=
          [Ev.correctGuess user (pyLower cw)
            (100 + ⌊max 0 ((room.settings.draw_time : ℚ) - (now - ts)) * 5⌋)
            (⌊max 0 ((room.settings.draw_time : ℚ) - (now - ts)) * 5⌋)
            (dset
              (if dget room.game_state.scores user = none then
                dset room.game_state.scores user 0
               else room.game_state.scores)
              user
              ((dget
                  (if dget room.game_state.scores user = none then
                    dset room.game_state.scores user 0
                   else room.game_state.scores) user).getD 0 +
                (100 +
                  ⌊max 0 ((room.settings.draw_time : ℚ) - (now - ts)) * 5⌋))),
           Ev.guessCorrect
             (100 + ⌊max 0 ((room.settings.draw_time : ℚ) - (now - ts)) * 5⌋)
             (pyLower cw)] } := by
  have h5' : pyLower cw ≠ "" := h6 ▸ h5
  have h7' : ¬ (List.filter (fun p => !decide (p = user))
      room.players).length ≤ room.game_state.players_guessed.length + 1 := by
    simpa using h7
  simp [handle_guess, h1, h2, h3, h4, h5, h6, h5', h7']

/-- Claim C1: at the fixture, bob guesses cat with half a second left
(draw_time 80, turn started at 0, now 79.5); the code awards
100 + int(time_remaining * 5) = 100 + floor(2.5) = 102, not the
100 + 5 * floor(time_remaining) = 100 of the claim (matching the spec
formula and the inline comment about 5 points per whole second). Exactly
the guesser is credited and appended to players_guessed. -/
theorem C1_code_eval :
    max (0 : ℚ) (((80 : Int) : ℚ) - ((159 : ℚ)/2 - 0)) = 1/2 ∧
    (handle_guess fixtureUsers c1Room "bob" "cat"
      (159/2)).room.game_state.scores =
      [("alice", 0), ("bob", 102), ("carol", 0)] ∧
    (handle_guess fixtureUsers c1Room "bob" "cat"
      (159/2)).room.game_state.players_guessed = ["bob"] ∧
    (102 : Int) = 100 + ⌊((1 : ℚ)/2) * 5⌋ ∧
    100 + 5 * ⌊((1 : ℚ)/2)⌋ = (100 : Int) := by
  have hmax : max (0 : ℚ) (((80 : Int) : ℚ) - ((159 : ℚ)/2 - 0)) = 1/2 := by
    norm_num
  have hfl : (⌊((1 : ℚ)/2) * 5⌋ : Int) = 2 := by
    norm_num [Int.floor_eq_iff]
  have hfl0 : (⌊((1 : ℚ)/2)⌋ : Int) = 0 := by
    norm_num [Int.floor_eq_iff]
  have h := handle_guess_correct fixtureUsers c1Room "bob" "cat" (159/2) "cat"
    0 (by decide) (by decide) (by decide) (by decide) (by decide) (by decide)
    (by decide)
  refine ⟨hmax, ?_, ?_, by rw [hfl]; norm_num, by rw [hfl0]; norm_num⟩
  · rw [h]
    simp only [c1Room]
    norm_num [dget, dset, hmax, hfl]
    all_goals decide
  · rw [h]
    simp [c1Room]

/-- Claim C3 (amended): handle_select_word accepts iff the caller is the
current drawer and the submitted word is present, non-empty and passes
validate_word; the phase is never consulted, so acceptance also happens
outside word selection. On acceptance it sets current_word, appends to
words_used, stamps turn_start_time with now, clears players_guessed, stops
the running timer and enters the drawing phase; on every rejection it emits
a single error and leaves the room unchanged. -/
theorem C3_select_word :
    ∀ (cache : List (String × List String)) (room : Room) (user : String)
      (word? : Option String) (now : ℚ),
      (room.game_state.current_drawer ≠ some user →
        handle_select_word cache room user word? now =
          { room := room,
            events := [Ev.errorMsg "Not your turn to select word"] }) ∧
      (room.game_state.current_drawer = some user →
        (word? = none ∨ word? = some "") →
        handle_select_word cache room user word? now =
          { room := room, events := [Ev.errorMsg "Word is required"] }) ∧
      (∀ w, room.game_state.current_drawer = some user → word? = some w →
        w ≠ "" → validate_word cache w room.settings.word_difficulty = false →
        handle_select_word cache room user word? now =
          { room := room, events := [Ev.errorMsg "Invalid word selected"] }) ∧
      (∀ w, room.game_state.current_drawer = some user → word? = some w →
        w ≠ "" → validate_word cache w room.settings.word_difficulty = true →
        handle_select_word cache room user word? now =
          { room :=
              { room with
                game_state :=
                  { room.game_state with
                    current_word := some w
                    words_used := room.game_state.words_used ++ [w]
                    turn_start_time := some now
                    players_guessed := [] } }
            events :=
              [Ev.stopTimer,
               Ev.wordSelectedDrawer w user,
               Ev.wordSelectedOthers
                 (String.mk (List.replicate (lettersOnly w).length '_'))
                 w.length user,
               Ev.drawingStarted (some user)
                 (String.mk (List.replicate (lettersOnly w).length '_'))
                 room.settings.draw_time,
               Ev.startTimer "drawing" room.settings.draw_time] }) := by
  intro cache room user word? now
  refine ⟨?_, ?_, ?_, ?_⟩
  · intro h
    simp [handle_select_word, h]
  · intro h hw
    rcases hw with hw | hw <;> subst hw <;> simp [handle_select_word, h]
  · intro w h hw hne hv
    subst hw
    simp [handle_select_word, h, hne, hv]
  · intro w h hw hne hv
    subst hw
    simp [handle_select_word, h, hne, hv, start_drawing_phase]

/-- Claim C3 witness: the drawer of c3Room submits the valid word dog and it
is accepted with the full set of effects. -/
theorem C3_select_word_witness :
    c3Room.game_state.current_drawer = some "alice" ∧
    validate_word c3Cache "dog" c3Room.settings.word_difficulty = true ∧
    handle_select_word c3Cache c3Room "alice" (some "dog") 42 =
      { room :=
          { c3Room with
            game_state :=
              { c3Room.game_state with
                current_word := some "dog"
                words_used := c3Room.game_state.words_used ++ ["dog"]
                turn_start_time := some 42
                players_guessed := [] } }
        events :=
          [Ev.stopTimer,
           Ev.wordSelectedDrawer "dog" "alice",
           Ev.wordSelectedOthers "___" 3 "alice",
           Ev.drawingStarted (some "alice") "___" 80,
           Ev.startTimer "drawing" 80] } := by
  refine ⟨by decide, by decide, ?_⟩
  have h := (C3_select_word c3Cache c3Room "alice" (some "dog") 42).2.2.2
    "dog" (by decide) rfl (by decide) (by decide)
  rw [h]
  decide

/-- Claim C3 counterexample: c3Room is not in the word-selection phase (its
current word is already set, the turn is mid-drawing), yet the same
submission is accepted and mutates the room without any error, against the
claimed only-in-WORD_SELECTION acceptance. -/
theorem C3_counterexample :
    ¬ inWordSelection c3Room ∧
    (handle_select_word c3Cache c3Room "alice" (some "dog") 42).room ≠
      c3Room ∧
    (handle_select_word c3Cache c3Room "alice" (some "dog")
      42).room.game_state.current_word = some "dog" ∧
    ((handle_select_word c3Cache c3Room "alice" (some "dog")
      42).events.filter isErrorEv) = [] := by
  refine ⟨fun h => absurd h.2 (by decide), by decide, by decide, by decide⟩

/-- Claim C10 witness: a concrete turn_timeout payload against a live room. -/
theorem C10_turn_timeout_witness :
    dget [("ROOM10", c10Room)] "ROOM10" = some c10Room ∧
    handle_turn_timeout [("ROOM10", c10Room)] fixtureUsers (some "ROOM10") =
      [Ev.turnEnded (some "dog") (some "alice")
        [("bob", "bob", 140), ("alice", "alice", 0)]
        [("alice", 0), ("bob", 140)] true false,
       Ev.startTimer "results" 5] := by
  refine ⟨by decide, ?_⟩
  rw [C10_turn_timeout.1 [("ROOM10", c10Room)] fixtureUsers "ROOM10" c10Room
    (by decide)]
  decide

end Skribly
